import Mathlib

/-!
Shallow embedding of the hvac_ir_climate IR-protocol encoder
(src/utils/ir_sender.py and src/utils/mitsubishi.py), together with
theorems settling the specification claims about it.

Conventions of the embedding:
* The `WaveGenerator.raw_codes` list of signed durations is modelled as a
  `List Int`; `one d` appends `+d`, `zero d` appends `-d`.
* The NEC timing profile is a structure of natural-number durations
  (the configuration values passed by the Mitsubishi layer are
  non-negative integers).
* `process_code` returns the updated generator state together with the
  Python return code (0 = success, 1 = encoding error on a symbol
  outside {0,1}); `send_code` returns `none` where the Python code
  returns the error value 1, and `some raw_codes` otherwise.
* `datetime.today()` is modelled by passing the wall-clock reading
  (hour, minute) as an explicit argument.
* `ClimateMode.climate2` falls through all branches for an unknown mode
  and returns Python `None`; this is modelled by `Option Nat`, and the
  subsequent bitwise-or in the frame builder (a `TypeError` on `None`
  in Python) makes the whole build return `none`.
-/

set_option autoImplicit false

namespace HvacIr

/-- Timing profile of the NEC modulator (fields of NEC.__init__ in
src/utils/ir_sender.py; `frequency` and the float duty cycle play no
role in waveform construction and are omitted). -/
structure Profile where
  leading_pulse_duration : Nat
  leading_gap_duration : Nat
  one_pulse_duration : Nat
  one_gap_duration : Nat
  zero_pulse_duration : Nat
  zero_gap_duration : Nat
  trailing_pulse_duration : Nat
  trailing_gap_duration : Nat
deriving DecidableEq, Repr

namespace WaveGenerator

/-- WaveGenerator.one: append a positive (high) duration. -/
def one (gen : List Int) (duration : Nat) : List Int :=
  gen ++ [(duration : Int)]

/-- WaveGenerator.zero: append a negative (low) duration. -/
def zero (gen : List Int) (duration : Nat) : List Int :=
  gen ++ [-(duration : Int)]

end WaveGenerator

namespace NEC

/-- NEC.send_agc: leading burst, a high for the leading pulse followed
(unconditionally) by a low for the leading gap. -/
def send_agc (p : Profile) (gen : List Int) : List Int :=
  WaveGenerator.zero (WaveGenerator.one gen p.leading_pulse_duration)
    p.leading_gap_duration

/-- NEC.send_trailing_pulse: trailing high, and a trailing low only when
the trailing gap duration is positive. -/
def send_trailing_pulse (p : Profile) (gen : List Int) : List Int :=
  let g := WaveGenerator.one gen p.trailing_pulse_duration
  if 0 < p.trailing_gap_duration then
    WaveGenerator.zero g p.trailing_gap_duration
  else g

/-- NEC.zero: a zero bit is a high pulse followed by a low gap of the
configured zero durations. -/
def zeroBit (p : Profile) (gen : List Int) : List Int :=
  WaveGenerator.zero (WaveGenerator.one gen p.zero_pulse_duration)
    p.zero_gap_duration

/-- NEC.one: a one bit is a high pulse followed by a low gap of the
configured one durations. -/
def oneBit (p : Profile) (gen : List Int) : List Int :=
  WaveGenerator.zero (WaveGenerator.one gen p.one_pulse_duration)
    p.one_gap_duration

/-- The for-loop body of NEC.process_code: process the symbols in order;
a symbol other than the characters 0 and 1 stops the loop and returns
the error code 1, leaving whatever was already emitted in the
generator state. -/
def processBits (p : Profile) : List Char → List Int → List Int × Nat
  | [], gen => (gen, 0)
  | c :: rest, gen =>
    if c = '0' then processBits p rest (zeroBit p gen)
    else if c = '1' then processBits p rest (oneBit p gen)
    else (gen, 1)

/-- NEC.process_code: optional AGC burst, the bit loop, then the optional
trailing burst; returns the generator state and the status code. -/
def process_code (p : Profile) (ircode : List Char) (gen : List Int) :
    List Int × Nat :=
  let gen1 :=
    if 0 < p.leading_pulse_duration ∨ 0 < p.leading_gap_duration then
      send_agc p gen
    else gen
  let r := processBits p ircode gen1
  if r.2 = 0 then
    (if 0 < p.trailing_pulse_duration then send_trailing_pulse p r.1
     else r.1, 0)
  else r

end NEC

/-- Loop body of IrSender.send_code: run process_code `nb` times against
the shared generator state; a non-zero status aborts with the error
return (modelled `none`). -/
def sendCodeGo (p : Profile) (ircode : List Char) (gen : List Int) :
    Nat → Option (List Int)
  | 0 => some gen
  | n + 1 =>
    let r := NEC.process_code p ircode gen
    if r.2 ≠ 0 then none else sendCodeGo p ircode r.1 n

/-- IrSender.send_code on a freshly constructed sender (the generator
starts empty): returns the accumulated raw codes, or `none` for the
Python error return value 1. -/
def send_code (p : Profile) (ircode : List Char) (nb : Nat) :
    Option (List Int) :=
  sendCodeGo p ircode [] nb

/-- Character emitted for one bit test `data[idx] & mask` in
IrSender.send_data. -/
def bitChar (b mask : Nat) : Char :=
  if b.land mask ≠ 0 then '1' else '0'

/-- The inner while loop of IrSender.send_data: starting from `mask`,
while `mask < max_mask` and `0 < mask`, test the bit, append the
character (invert mode) or prepend it (non-invert mode), then double
the mask. -/
def bitLoop (b max_mask mask : Nat) (must_invert : Bool)
    (code : List Char) : List Char :=
  if h : mask < max_mask ∧ 0 < mask then
    bitLoop b max_mask (mask * 2) must_invert
      (if must_invert then code ++ [bitChar b mask]
       else bitChar b mask :: code)
  else code
termination_by max_mask - mask
decreasing_by omega

/-- The sequence of mask values for which the inner while loop of
send_data runs, in loop order. -/
def maskSeqFrom (max_mask mask : Nat) : List Nat :=
  if h : mask < max_mask ∧ 0 < mask then
    mask :: maskSeqFrom max_mask (mask * 2)
  else []
termination_by max_mask - mask
decreasing_by omega

/-- The character string built by the double loop of IrSender.send_data:
for each position i, take byte i (invert mode) or byte len-i-1
(non-invert mode) and run the bit loop on it. -/
def sendDataCode (data : List Nat) (max_mask : Nat) (must_invert : Bool) :
    List Char :=
  (List.range data.length).foldl
    (fun code i =>
      bitLoop (data.getD (if must_invert then i else data.length - i - 1) 0)
        max_mask 1 must_invert code)
    []

/-- IrSender.send_data: build the character code and hand it to
send_code with the repetition count. -/
def send_data (p : Profile) (data : List Nat) (max_mask : Nat)
    (must_invert : Bool) (nb : Nat) : Option (List Int) :=
  send_code p (sendDataCode data max_mask must_invert) nb

namespace PowerMode

def PowerOff : Nat := 0x00
def PowerOn : Nat := 0x20

end PowerMode

namespace ClimateMode

def Hot : Nat := 0x08
def Cold : Nat := 0x18
def Dry : Nat := 0x10
def Auto : Nat := 0x20

def Hot2 : Nat := 0x00
def Cold2 : Nat := 0x06
def Dry2 : Nat := 0x02
def Auto2 : Nat := 0x00

/-- ClimateMode.climate2: secondary climate code; the Python function
falls through all four branches for any other value and returns None,
modelled by `Option Nat`. -/
def climate2 (climate_mode : Nat) : Option Nat :=
  if climate_mode = Hot then some Hot2
  else if climate_mode = Cold then some Cold2
  else if climate_mode = Dry then some Dry2
  else if climate_mode = Auto then some Auto2
  else none

end ClimateMode

namespace ISeeMode

def ISeeOff : Nat := 0x00
def ISeeOn : Nat := 0x40

end ISeeMode

namespace PowerfulMode

def PowerfulOff : Nat := 0x00
def PowerfulOn : Nat := 0x08

end PowerfulMode

namespace VanneHorizontalMode

def NotSet : Nat := 0x00
def Left : Nat := 0x10
def MiddleLeft : Nat := 0x20
def Middle : Nat := 0x30
def MiddleRight : Nat := 0x40
def Right : Nat := 0x50
def Swing : Nat := 0xC0

end VanneHorizontalMode

namespace FanMode

def Speed1 : Nat := 0x01
def Speed2 : Nat := 0x02
def Speed3 : Nat := 0x03
def Speed4 : Nat := 0x04
def Auto : Nat := 0x80

end FanMode

namespace VanneVerticalMode

def Auto : Nat := 0x40
def Top : Nat := 0x48
def MiddleTop : Nat := 0x50
def Middle : Nat := 0x58
def MiddleBottom : Nat := 0x60
def Bottom : Nat := 0x68
def Swing : Nat := 0x78

end VanneVerticalMode

namespace TimeControlMode

def NoTimeControl : Nat := 0x00
def ControlStart : Nat := 0x05
def ControlEnd : Nat := 0x03
def ControlBoth : Nat := 0x07

end TimeControlMode

namespace AreaMode

def NotSet : Nat := 0x00
def Left : Nat := 0x40
def Right : Nat := 0xC0
def Full : Nat := 0x80

end AreaMode

namespace Delay

def HdrMark : Nat := 3400
def HdrSpace : Nat := 1750
def BitMark : Nat := 450
def OneSpace : Nat := 1300
def ZeroSpace : Nat := 420
def RptMark : Nat := 440
def RptSpace : Nat := 17100

end Delay

namespace Index

def Header0 : Nat := 0
def Header1 : Nat := 1
def Header2 : Nat := 2
def Header3 : Nat := 3
def Header4 : Nat := 4
def Power : Nat := 5
def ClimateAndISee : Nat := 6
def Temperature : Nat := 7
def ClimateAndHorizontalVanne : Nat := 8
def FanAndVerticalVanne : Nat := 9
def Clock : Nat := 10
def EndTime : Nat := 11
def StartTime : Nat := 12
def TimeControlAndArea : Nat := 13
def Unused14 : Nat := 14
def PowerfulMode : Nat := 15
def Unused16 : Nat := 16
def CRC : Nat := 17

end Index

namespace Constants

def Frequency : Nat := 38000
def MinTemp : Int := 16
def MaxTemp : Int := 31
def MaxMask : Nat := 0xFF
def NbBytes : Nat := 18
def NbPackets : Nat := 2

end Constants

/-- Wall-clock or scheduled time of day, the (hour, minute) fields the
builder reads off a datetime value. -/
structure Time where
  hour : Nat
  minute : Nat
deriving DecidableEq, Repr

/-- Encoding hour*6 + minute//10 used for the Clock, EndTime and
StartTime bytes. -/
def timeByte (t : Time) : Nat :=
  t.hour * 6 + t.minute / 10

/-- Settings arguments of Mitsubishi.__send_command (the power mode is
passed separately, as in the source). -/
structure Settings where
  climate_mode : Nat
  temperature : Int
  fan_mode : Nat
  vanne_vertical_mode : Nat
  vanne_horizontal_mode : Nat
  isee_mode : Nat
  area_mode : Nat
  start_time : Option Time
  end_time : Option Time
  powerful : Nat
deriving DecidableEq, Repr

/-- Temperature byte: max(MinTemp, min(MaxTemp, temperature)) - 16;
the clamp makes the difference non-negative, so the byte is a Nat. -/
def tempByte (temperature : Int) : Nat :=
  (max Constants.MinTemp (min Constants.MaxTemp temperature) - 16).toNat

/-- The four-way if/elif classification of the time-control code in
Mitsubishi.__send_command. -/
def timeControlOf (start_time end_time : Option Time) : Nat :=
  if end_time.isSome ∧ start_time.isSome then TimeControlMode.ControlBoth
  else if end_time.isSome then TimeControlMode.ControlEnd
  else if start_time.isSome then TimeControlMode.ControlStart
  else TimeControlMode.NoTimeControl

/-- The template frame of Mitsubishi.__send_command: a valid frame whose
bytes are overwritten at the named indices. -/
def frameTemplate : List Nat :=
  [0x23, 0xCB, 0x26, 0x01, 0x00, 0x20,
   0x08, 0x06, 0x30, 0x45, 0x67, 0x00,
   0x00, 0x00, 0x10, 0x00, 0x00, 0x1F]

/-- The frame-building part of Mitsubishi.__send_command: start from the
template, overwrite the field bytes in source order, and finish with
the checksum (sum of all bytes but the last, modulo MaxMask + 1).
Returns `none` when climate2 yields None (the bitwise-or with None is a
TypeError in Python and the build cannot complete). -/
def buildFrame (s : Settings) (power_mode : Nat) (now : Time) :
    Option (List Nat) :=
  match ClimateMode.climate2 s.climate_mode with
  | none => none
  | some c2 =>
    let data := frameTemplate
    let data := data.set Index.Power power_mode
    let data := data.set Index.ClimateAndISee (s.climate_mode ||| s.isee_mode)
    let data := data.set Index.Temperature (tempByte s.temperature)
    let data := data.set Index.ClimateAndHorizontalVanne
      (c2 ||| s.vanne_horizontal_mode)
    let data := data.set Index.FanAndVerticalVanne
      (s.fan_mode ||| s.vanne_vertical_mode)
    let data := data.set Index.Clock (timeByte now)
    let data := data.set Index.EndTime
      (match s.end_time with | none => 0 | some t => timeByte t)
    let data := data.set Index.StartTime
      (match s.start_time with | none => 0 | some t => timeByte t)
    let data := data.set Index.TimeControlAndArea
      (timeControlOf s.start_time s.end_time ||| s.area_mode)
    let data := data.set Index.PowerfulMode s.powerful
    let data := data.set Index.CRC
      (data.dropLast.sum % (Constants.MaxMask + 1))
    some data

/-- The NEC profile constructed by Mitsubishi.__send_command from the
Delay constants. -/
def mitsubishiProfile : Profile :=
  { leading_pulse_duration := Delay.HdrMark
    leading_gap_duration := Delay.HdrSpace
    one_pulse_duration := Delay.BitMark
    one_gap_duration := Delay.OneSpace
    zero_pulse_duration := Delay.BitMark
    zero_gap_duration := Delay.ZeroSpace
    trailing_pulse_duration := Delay.RptMark
    trailing_gap_duration := Delay.RptSpace }

/-- Mitsubishi.__send_command: build the frame and serialize it with the
full byte mask, inverted bit order and NbPackets repetitions, through a
freshly constructed IrSender. The outer `none` is the Python TypeError
on an unknown climate mode; the inner `Option` is the error return of
send_code. -/
def sendCommandImpl (s : Settings) (power_mode : Nat) (now : Time) :
    Option (Option (List Int)) :=
  (buildFrame s power_mode now).map
    (fun data =>
      send_data mitsubishiProfile data Constants.MaxMask true
        Constants.NbPackets)

/-- Mitsubishi.send_command: the public entry point forces PowerOn. -/
def send_command (s : Settings) (now : Time) : Option (Option (List Int)) :=
  sendCommandImpl s PowerMode.PowerOn now

/-- Mitsubishi.power_off: fixed safe settings with PowerOff. -/
def power_off (now : Time) : Option (Option (List Int)) :=
  sendCommandImpl
    { climate_mode := ClimateMode.Auto
      temperature := 21
      fan_mode := FanMode.Auto
      vanne_vertical_mode := VanneVerticalMode.Auto
      vanne_horizontal_mode := VanneHorizontalMode.Swing
      isee_mode := ISeeMode.ISeeOff
      area_mode := AreaMode.NotSet
      start_time := none
      end_time := none
      powerful := PowerfulMode.PowerfulOff }
    PowerMode.PowerOff now

/-- The first 17 bytes of the frame built by Mitsubishi.__send_command,
given the secondary climate code c2. -/
def framePre (s : Settings) (power_mode : Nat) (now : Time) (c2 : Nat) :
    List Nat :=
  [0x23, 0xCB, 0x26, 0x01, 0x00,
   power_mode,
   s.climate_mode ||| s.isee_mode,
   tempByte s.temperature,
   c2 ||| s.vanne_horizontal_mode,
   s.fan_mode ||| s.vanne_vertical_mode,
   timeByte now,
   (match s.end_time with | none => 0 | some t => timeByte t),
   (match s.start_time with | none => 0 | some t => timeByte t),
   timeControlOf s.start_time s.end_time ||| s.area_mode,
   0x10,
   s.powerful,
   0x00]

/-- Spec-modelled visit order for comparison with the code (claim C2
words): the set bits of the mask, visited from the most-significant set
bit down to the least-significant, as mask values. -/
def specVisitMasks (mask : Nat) : List Nat :=
  (((List.range (mask + 1)).filter (fun k => mask.testBit k)).reverse).map
    (fun k => 2 ^ k)

/-- Profile exhibiting the leading-gap behaviour: a positive leading
pulse with a zero leading gap, and no trailing burst. -/
def agcProbeProfile : Profile :=
  { leading_pulse_duration := 9000
    leading_gap_duration := 0
    one_pulse_duration := 562
    one_gap_duration := 1686
    zero_pulse_duration := 562
    zero_gap_duration := 562
    trailing_pulse_duration := 0
    trailing_gap_duration := 0 }

/-- Sample settings: the spec's concrete scenario (Cold, temperature 40,
fan Speed2, vertical Top). -/
def sampleSettings : Settings :=
  { climate_mode := ClimateMode.Cold
    temperature := 40
    fan_mode := FanMode.Speed2
    vanne_vertical_mode := VanneVerticalMode.Top
    vanne_horizontal_mode := VanneHorizontalMode.NotSet
    isee_mode := ISeeMode.ISeeOff
    area_mode := AreaMode.NotSet
    start_time := none
    end_time := none
    powerful := PowerfulMode.PowerfulOff }

/-- The fixed safe settings used by Mitsubishi.power_off. -/
def offSettings : Settings :=
  { climate_mode := ClimateMode.Auto
    temperature := 21
    fan_mode := FanMode.Auto
    vanne_vertical_mode := VanneVerticalMode.Auto
    vanne_horizontal_mode := VanneHorizontalMode.Swing
    isee_mode := ISeeMode.ISeeOff
    area_mode := AreaMode.NotSet
    start_time := none
    end_time := none
    powerful := PowerfulMode.PowerfulOff }

/-! ### Structural lemmas about the modulator -/

/-- NEC.zero appends the zero-bit pulse/gap pair. -/
theorem zeroBit_eq (p : Profile) (gen : List Int) :
    NEC.zeroBit p gen =
      gen ++ [(p.zero_pulse_duration : Int), -(p.zero_gap_duration : Int)] := by
  simp [NEC.zeroBit, WaveGenerator.one, WaveGenerator.zero]

/-- NEC.one appends the one-bit pulse/gap pair. -/
theorem oneBit_eq (p : Profile) (gen : List Int) :
    NEC.oneBit p gen =
      gen ++ [(p.one_pulse_duration : Int), -(p.one_gap_duration : Int)] := by
  simp [NEC.oneBit, WaveGenerator.one, WaveGenerator.zero]

/-- NEC.send_agc appends the leading pulse and, unconditionally, the
leading gap. -/
theorem send_agc_eq (p : Profile) (gen : List Int) :
    NEC.send_agc p gen =
      gen ++ [(p.leading_pulse_duration : Int),
              -(p.leading_gap_duration : Int)] := by
  simp [NEC.send_agc, WaveGenerator.one, WaveGenerator.zero]

/-- NEC.send_trailing_pulse appends the trailing pulse and the trailing
gap only when the gap is positive. -/
theorem send_trailing_pulse_eq (p : Profile) (gen : List Int) :
    NEC.send_trailing_pulse p gen =
      gen ++ ((p.trailing_pulse_duration : Int) ::
        (if 0 < p.trailing_gap_duration then
          [-(p.trailing_gap_duration : Int)] else [])) := by
  by_cases h : 0 < p.trailing_gap_duration <;>
    simp [NEC.send_trailing_pulse, WaveGenerator.one, WaveGenerator.zero, h]

/-- The bit loop of process_code only appends to the generator state:
its effect and status on any state equal its effect on the empty state,
appended. -/
theorem processBits_append (p : Profile) (ircode : List Char) :
    ∀ gen : List Int,
      NEC.processBits p ircode gen =
        (gen ++ (NEC.processBits p ircode []).1,
         (NEC.processBits p ircode []).2) := by
  induction ircode with
  | nil => intro gen; simp [NEC.processBits]
  | cons c rest ih =>
    intro gen
    by_cases h0 : c = '0'
    · simp only [NEC.processBits, if_pos h0, zeroBit_eq]
      rw [ih (gen ++ [(p.zero_pulse_duration : Int),
            -(p.zero_gap_duration : Int)]),
          ih ([] ++ [(p.zero_pulse_duration : Int),
            -(p.zero_gap_duration : Int)])]
      simp
    · by_cases h1 : c = '1'
      · simp only [NEC.processBits, if_neg h0, if_pos h1, oneBit_eq]
        rw [ih (gen ++ [(p.one_pulse_duration : Int),
              -(p.one_gap_duration : Int)]),
            ih ([] ++ [(p.one_pulse_duration : Int),
              -(p.one_gap_duration : Int)])]
        simp
      · simp [NEC.processBits, if_neg h0, if_neg h1]

/-- process_code only appends to the generator state: running it on any
state equals its run on the empty state, appended, with the same
status. -/
theorem process_code_append (p : Profile) (ircode : List Char)
    (gen : List Int) :
    NEC.process_code p ircode gen =
      (gen ++ (NEC.process_code p ircode []).1,
       (NEC.process_code p ircode []).2) := by
  unfold NEC.process_code
  by_cases hg : 0 < p.leading_pulse_duration ∨ 0 < p.leading_gap_duration
  · simp only [if_pos hg, send_agc_eq]
    rw [processBits_append p ircode
          (gen ++ [(p.leading_pulse_duration : Int),
            -(p.leading_gap_duration : Int)]),
        processBits_append p ircode
          ([] ++ [(p.leading_pulse_duration : Int),
            -(p.leading_gap_duration : Int)])]
    by_cases hs : (NEC.processBits p ircode []).2 = 0
    · by_cases ht : 0 < p.trailing_pulse_duration <;>
        simp [hs, ht, send_trailing_pulse_eq]
    · simp [hs]
  · simp only [if_neg hg]
    rw [processBits_append p ircode gen]
    by_cases hs : (NEC.processBits p ircode []).2 = 0
    · by_cases ht : 0 < p.trailing_pulse_duration <;>
        simp [hs, ht, send_trailing_pulse_eq]
    · simp [hs]

/-- With a successful single emission, the send_code loop appends n
copies of that emission. -/
theorem sendCodeGo_ok (p : Profile) (ircode : List Char)
    (hs : (NEC.process_code p ircode []).2 = 0) :
    ∀ (n : Nat) (gen : List Int),
      sendCodeGo p ircode gen n =
        some (gen ++ (List.replicate n (NEC.process_code p ircode []).1).flatten) := by
  intro n
  induction n with
  | zero => intro gen; simp [sendCodeGo]
  | succ n ih =>
    intro gen
    simp only [sendCodeGo]
    rw [process_code_append p ircode gen]
    simp [hs, ih, List.replicate_succ, List.flatten_cons]

/-- With a failing emission, the send_code loop with at least one
repetition returns the error. -/
theorem sendCodeGo_err (p : Profile) (ircode : List Char)
    (hs : (NEC.process_code p ircode []).2 ≠ 0) :
    ∀ (n : Nat) (gen : List Int), 1 ≤ n →
      sendCodeGo p ircode gen n = none := by
  intro n gen hn
  match n, hn with
  | n + 1, _ =>
    simp only [sendCodeGo]
    rw [process_code_append p ircode gen]
    simp [hs]

/-- The bit loop succeeds exactly when every symbol is the character 0
or 1. -/
theorem processBits_status (p : Profile) :
    ∀ (ircode : List Char) (gen : List Int),
      (NEC.processBits p ircode gen).2 = 0 ↔
        ∀ c ∈ ircode, c = '0' ∨ c = '1' := by
  intro ircode
  induction ircode with
  | nil => intro gen; simp [NEC.processBits]
  | cons c rest ih =>
    intro gen
    by_cases h0 : c = '0'
    · simp [NEC.processBits, h0, ih]
    · by_cases h1 : c = '1'
      · simp [NEC.processBits, h0, h1, ih]
      · simp [NEC.processBits, h0, h1]

/-- process_code succeeds exactly when every symbol is the character 0
or 1. -/
theorem process_code_status (p : Profile) (ircode : List Char)
    (gen : List Int) :
    (NEC.process_code p ircode gen).2 = 0 ↔
      ∀ c ∈ ircode, c = '0' ∨ c = '1' := by
  rw [← processBits_status p ircode
        (if 0 < p.leading_pulse_duration ∨ 0 < p.leading_gap_duration then
          NEC.send_agc p gen else gen)]
  unfold NEC.process_code
  by_cases hs : (NEC.processBits p ircode
      (if 0 < p.leading_pulse_duration ∨ 0 < p.leading_gap_duration then
        NEC.send_agc p gen else gen)).2 = 0 <;>
    simp [hs]

/-- Length of the concatenation of n copies of a list. -/
theorem join_replicate_length {α : Type} :
    ∀ (n : Nat) (l : List α), ((List.replicate n l).flatten).length = n * l.length := by
  intro n l
  induction n with
  | zero => simp
  | succ n ih => simp [List.replicate_succ, ih, Nat.succ_mul, Nat.add_comm]

/-! ### Shape of a successfully built frame -/

/-- A successful build yields the 17 field bytes followed by their sum
modulo 256. -/
theorem buildFrame_some (s : Settings) (power_mode : Nat) (now : Time)
    (c2 : Nat) (h : ClimateMode.climate2 s.climate_mode = some c2) :
    buildFrame s power_mode now =
      some (framePre s power_mode now c2 ++
        [(framePre s power_mode now c2).sum % 256]) := by
  unfold buildFrame
  rw [h]
  rfl

/-! ### Characterization of the send_data bit loop -/

/-- In invert mode the bit loop appends one character per visited mask,
in loop order. -/
theorem bitLoop_true_aux :
    ∀ (k b max_mask mask : Nat) (code : List Char), max_mask - mask ≤ k →
      bitLoop b max_mask mask true code =
        code ++ (maskSeqFrom max_mask mask).map (bitChar b) := by
  intro k
  induction k with
  | zero =>
    intro b max_mask mask code hk
    rw [bitLoop, maskSeqFrom]
    by_cases h : mask < max_mask ∧ 0 < mask
    · exact absurd h.1 (by omega)
    · simp [h]
  | succ k ih =>
    intro b max_mask mask code hk
    rw [bitLoop, maskSeqFrom]
    by_cases h : mask < max_mask ∧ 0 < mask
    · simp only [dif_pos h, if_true]
      rw [ih b max_mask (mask * 2) (code ++ [bitChar b mask]) (by omega)]
      simp
    · simp [h]

/-- In non-invert mode the bit loop prepends one character per visited
mask, so the result is the reversed visit order in front of the
accumulator. -/
theorem bitLoop_false_aux :
    ∀ (k b max_mask mask : Nat) (code : List Char), max_mask - mask ≤ k →
      bitLoop b max_mask mask false code =
        ((maskSeqFrom max_mask mask).map (bitChar b)).reverse ++ code := by
  intro k
  induction k with
  | zero =>
    intro b max_mask mask code hk
    rw [bitLoop, maskSeqFrom]
    by_cases h : mask < max_mask ∧ 0 < mask
    · exact absurd h.1 (by omega)
    · simp [h]
  | succ k ih =>
    intro b max_mask mask code hk
    rw [bitLoop, maskSeqFrom]
    by_cases h : mask < max_mask ∧ 0 < mask
    · simp only [dif_pos h, if_neg Bool.false_ne_true]
      rw [ih b max_mask (mask * 2) (bitChar b mask :: code) (by omega)]
      simp
    · simp [h]

/-- Every member of the visited-mask sequence is at least the starting
mask. -/
theorem maskSeqFrom_mem_lower :
    ∀ (k max_mask mask m : Nat), max_mask - mask ≤ k →
      m ∈ maskSeqFrom max_mask mask → mask ≤ m := by
  intro k
  induction k with
  | zero =>
    intro max_mask mask m hk hm
    rw [maskSeqFrom] at hm
    by_cases h : mask < max_mask ∧ 0 < mask
    · exact absurd h.1 (by omega)
    · simp [h] at hm
  | succ k ih =>
    intro max_mask mask m hk hm
    rw [maskSeqFrom] at hm
    by_cases h : mask < max_mask ∧ 0 < mask
    · simp only [dif_pos h, List.mem_cons] at hm
      rcases hm with rfl | hm
      · exact Nat.le_refl m
      · have := ih max_mask (mask * 2) m (by omega) hm
        omega
    · simp [h] at hm

/-- The visited-mask sequence is strictly increasing: the loop runs from
the least-significant end upward. -/
theorem maskSeqFrom_pairwise :
    ∀ (k max_mask mask : Nat), max_mask - mask ≤ k →
      List.Pairwise (fun a b => a < b) (maskSeqFrom max_mask mask) := by
  intro k
  induction k with
  | zero =>
    intro max_mask mask hk
    rw [maskSeqFrom]
    by_cases h : mask < max_mask ∧ 0 < mask
    · exact absurd h.1 (by omega)
    · simp [h]
  | succ k ih =>
    intro max_mask mask hk
    rw [maskSeqFrom]
    by_cases h : mask < max_mask ∧ 0 < mask
    · simp only [dif_pos h]
      refine List.Pairwise.cons ?_ (ih max_mask (mask * 2) (by omega))
      intro m hm
      have := maskSeqFrom_mem_lower (max_mask - mask * 2) max_mask
        (mask * 2) m (Nat.le_refl _) hm
      omega
    · simp [h]

/-- Membership in the visited-mask sequence started at a power of two:
exactly the powers of two below max_mask and at least the start. -/
theorem maskSeqFrom_mem_pow :
    ∀ (k max_mask j m : Nat), max_mask - 2 ^ j ≤ k →
      (m ∈ maskSeqFrom max_mask (2 ^ j) ↔
        (∃ i, m = 2 ^ i) ∧ 2 ^ j ≤ m ∧ m < max_mask) := by
  intro k
  induction k with
  | zero =>
    intro max_mask j m hk
    rw [maskSeqFrom]
    have hp : 0 < 2 ^ j := Nat.pow_pos (by norm_num)
    by_cases h : 2 ^ j < max_mask ∧ 0 < 2 ^ j
    · exact absurd h.1 (by omega)
    · have hle : max_mask ≤ 2 ^ j := by
        rcases Nat.lt_or_ge (2 ^ j) max_mask with hlt | hge
        · exact absurd ⟨hlt, hp⟩ h
        · exact hge
      simp only [dif_neg h, List.not_mem_nil, false_iff]
      rintro ⟨-, h1, h2⟩
      omega
  | succ k ih =>
    intro max_mask j m hk
    rw [maskSeqFrom]
    have hp : 0 < 2 ^ j := Nat.pow_pos (by norm_num)
    have hps : (2 : Nat) ^ (j + 1) = 2 ^ j * 2 := pow_succ 2 j
    by_cases h : 2 ^ j < max_mask ∧ 0 < 2 ^ j
    · simp only [dif_pos h, List.mem_cons]
      rw [show (2 : Nat) ^ j * 2 = 2 ^ (j + 1) from hps.symm]
      rw [ih max_mask (j + 1) m (by omega)]
      constructor
      · rintro (rfl | ⟨hpow, hlo, hhi⟩)
        · exact ⟨⟨j, rfl⟩, Nat.le_refl _, h.1⟩
        · exact ⟨hpow, by omega, hhi⟩
      · rintro ⟨⟨i, rfl⟩, hlo, hhi⟩
        have hji : j ≤ i := by
          by_contra hc
          have : (2 : Nat) ^ i < 2 ^ j :=
            Nat.pow_lt_pow_right (by norm_num) (by omega)
          omega
        rcases Nat.eq_or_lt_of_le hji with rfl | hlt
        · exact Or.inl rfl
        · refine Or.inr ⟨⟨i, rfl⟩, ?_, hhi⟩
          exact Nat.pow_le_pow_right (by norm_num) (by omega)
    · have hle : max_mask ≤ 2 ^ j := by
        rcases Nat.lt_or_ge (2 ^ j) max_mask with hlt | hge
        · exact absurd ⟨hlt, hp⟩ h
        · exact hge
      simp only [dif_neg h, List.not_mem_nil, false_iff]
      rintro ⟨-, h1, h2⟩
      omega

/-! ### Claim theorems -/

/-- C1: every frame the builder produces is 18 bytes long and its last
byte equals the sum of the preceding 17 bytes modulo 256. -/
theorem checksum_invariant (s : Settings) (power_mode : Nat) (now : Time)
    (frame : List Nat) (h : buildFrame s power_mode now = some frame) :
    frame.length = 18 ∧ frame.getD 17 0 = (frame.take 17).sum % 256 := by
  cases hc2 : ClimateMode.climate2 s.climate_mode with
  | none =>
    unfold buildFrame at h
    rw [hc2] at h
    simp at h
  | some c2 =>
    rw [buildFrame_some s power_mode now c2 hc2] at h
    have hf := Option.some.inj h
    subst hf
    exact ⟨rfl, rfl⟩

/-- C1 witness: the checksum invariant evaluated on a concrete build. -/
theorem checksum_invariant_witness :
    buildFrame sampleSettings 32 ⟨14, 35⟩ =
      some [35, 203, 38, 1, 0, 32, 24, 15, 6, 74, 87, 0, 0, 0, 16, 0, 0, 19] ∧
    (([35, 203, 38, 1, 0, 32, 24, 15, 6, 74, 87, 0, 0, 0, 16, 0, 0, 19] :
        List Nat).length = 18 ∧
      ([35, 203, 38, 1, 0, 32, 24, 15, 6, 74, 87, 0, 0, 0, 16, 0, 0, 19] :
        List Nat).getD 17 0 =
        (([35, 203, 38, 1, 0, 32, 24, 15, 6, 74, 87, 0, 0, 0, 16, 0, 0, 19] :
          List Nat).take 17).sum % 256) :=
  ⟨by decide, checksum_invariant sampleSettings 32 ⟨14, 35⟩ _ (by decide)⟩

/-- C6: the temperature byte of every produced frame equals
clamp(t, 16, 31) - 16, lies in [0, 15], and out-of-range temperatures
never make the build fail. -/
theorem temperature_clamp (s : Settings) (power_mode : Nat) (now : Time)
    (h : (ClimateMode.climate2 s.climate_mode).isSome) :
    ∃ frame, buildFrame s power_mode now = some frame ∧
      (frame.getD Index.Temperature 0 : Int) =
        max 16 (min 31 s.temperature) - 16 ∧
      frame.getD Index.Temperature 0 ≤ 15 := by
  obtain ⟨c2, hc2⟩ := Option.isSome_iff_exists.mp h
  refine ⟨_, buildFrame_some s power_mode now c2 hc2, ?_, ?_⟩
  · show ((tempByte s.temperature : Nat) : Int) =
      max 16 (min 31 s.temperature) - 16
    unfold tempByte Constants.MinTemp Constants.MaxTemp
    omega
  · show tempByte s.temperature ≤ 15
    unfold tempByte Constants.MinTemp Constants.MaxTemp
    omega

/-- C6 witness: temperature 40 clamps to temperature byte 15 and the
build succeeds. -/
theorem temperature_clamp_witness :
    (ClimateMode.climate2 sampleSettings.climate_mode).isSome = true ∧
    (∃ frame, buildFrame sampleSettings 32 ⟨14, 35⟩ = some frame ∧
      (frame.getD Index.Temperature 0 : Int) =
        max 16 (min 31 sampleSettings.temperature) - 16 ∧
      frame.getD Index.Temperature 0 ≤ 15) :=
  ⟨by decide, temperature_clamp sampleSettings 32 ⟨14, 35⟩ (by decide)⟩

/-- C9: climate2 is partial: it maps the four known climate modes to
their secondary codes and every other value to None, and the build
completes exactly when climate2 is defined on the climate mode. -/
theorem climate2_partiality (m : Nat) (s : Settings) (power_mode : Nat)
    (now : Time)
    (hm : m ≠ ClimateMode.Hot ∧ m ≠ ClimateMode.Cold ∧
      m ≠ ClimateMode.Dry ∧ m ≠ ClimateMode.Auto) :
    ClimateMode.climate2 ClimateMode.Hot = some 0 ∧
    ClimateMode.climate2 ClimateMode.Cold = some 6 ∧
    ClimateMode.climate2 ClimateMode.Dry = some 2 ∧
    ClimateMode.climate2 ClimateMode.Auto = some 0 ∧
    ClimateMode.climate2 m = none ∧
    ((buildFrame s power_mode now).isSome ↔
      (ClimateMode.climate2 s.climate_mode).isSome) := by
  obtain ⟨h1, h2, h3, h4⟩ := hm
  refine ⟨by decide, by decide, by decide, by decide, ?_, ?_⟩
  · simp [ClimateMode.climate2, h1, h2, h3, h4]
  · cases hc2 : ClimateMode.climate2 s.climate_mode with
    | none =>
      unfold buildFrame
      rw [hc2]
      simp
    | some c2 =>
      rw [buildFrame_some s power_mode now c2 hc2]
      simp [hc2]

/-- C9 witness: the partiality facts evaluated at the unknown mode 9 and
a concrete build. -/
theorem climate2_partiality_witness :
    ((9 : Nat) ≠ ClimateMode.Hot ∧ (9 : Nat) ≠ ClimateMode.Cold ∧
      (9 : Nat) ≠ ClimateMode.Dry ∧ (9 : Nat) ≠ ClimateMode.Auto) ∧
    (ClimateMode.climate2 ClimateMode.Hot = some 0 ∧
      ClimateMode.climate2 ClimateMode.Cold = some 6 ∧
      ClimateMode.climate2 ClimateMode.Dry = some 2 ∧
      ClimateMode.climate2 ClimateMode.Auto = some 0 ∧
      ClimateMode.climate2 9 = none ∧
      ((buildFrame offSettings 0 ⟨0, 0⟩).isSome ↔
        (ClimateMode.climate2 offSettings.climate_mode).isSome)) :=
  ⟨by decide, climate2_partiality 9 offSettings 0 ⟨0, 0⟩ (by decide)⟩

/-- C10: the bytes the builder never assigns keep the template
constants: bytes 0..4 are 0x23, 0xCB, 0x26, 0x01, 0x00, byte 14 is 0x10
and byte 16 is 0x00, for every produced frame. -/
theorem template_bytes_constant (s : Settings) (power_mode : Nat)
    (now : Time) (frame : List Nat)
    (h : buildFrame s power_mode now = some frame) :
    frame.getD 0 0 = 0x23 ∧ frame.getD 1 0 = 0xCB ∧
    frame.getD 2 0 = 0x26 ∧ frame.getD 3 0 = 0x01 ∧
    frame.getD 4 0 = 0x00 ∧ frame.getD 14 0 = 0x10 ∧
    frame.getD 16 0 = 0x00 := by
  cases hc2 : ClimateMode.climate2 s.climate_mode with
  | none =>
    unfold buildFrame at h
    rw [hc2] at h
    simp at h
  | some c2 =>
    rw [buildFrame_some s power_mode now c2 hc2] at h
    have hf := Option.some.inj h
    subst hf
    exact ⟨rfl, rfl, rfl, rfl, rfl, rfl, rfl⟩

/-- C10 witness: the template bytes on a concrete build. -/
theorem template_bytes_constant_witness :
    buildFrame offSettings 0 ⟨0, 0⟩ =
      some [35, 203, 38, 1, 0, 0, 32, 5, 192, 192, 0, 0, 0, 0, 16, 0, 0, 202] ∧
    (([35, 203, 38, 1, 0, 0, 32, 5, 192, 192, 0, 0, 0, 0, 16, 0, 0, 202] :
        List Nat).getD 0 0 = 0x23 ∧
      ([35, 203, 38, 1, 0, 0, 32, 5, 192, 192, 0, 0, 0, 0, 16, 0, 0, 202] :
        List Nat).getD 1 0 = 0xCB ∧
      ([35, 203, 38, 1, 0, 0, 32, 5, 192, 192, 0, 0, 0, 0, 16, 0, 0, 202] :
        List Nat).getD 2 0 = 0x26 ∧
      ([35, 203, 38, 1, 0, 0, 32, 5, 192, 192, 0, 0, 0, 0, 16, 0, 0, 202] :
        List Nat).getD 3 0 = 0x01 ∧
      ([35, 203, 38, 1, 0, 0, 32, 5, 192, 192, 0, 0, 0, 0, 16, 0, 0, 202] :
        List Nat).getD 4 0 = 0x00 ∧
      ([35, 203, 38, 1, 0, 0, 32, 5, 192, 192, 0, 0, 0, 0, 16, 0, 0, 202] :
        List Nat).getD 14 0 = 0x10 ∧
      ([35, 203, 38, 1, 0, 0, 32, 5, 192, 192, 0, 0, 0, 0, 16, 0, 0, 202] :
        List Nat).getD 16 0 = 0x00) :=
  ⟨by decide, template_bytes_constant offSettings 0 ⟨0, 0⟩ _ (by decide)⟩

/-- C2 counterexample: with byte 1, mask 0xFF and invert mode, send_data
emits the least-significant bit first, not the order the claim states
(most-significant set bit of the mask first). -/
theorem bit_order_msb_refuted :
    sendDataCode [1] 255 true = ['1', '0', '0', '0', '0', '0', '0', '0'] ∧
    (specVisitMasks 255).map (bitChar 1) =
      ['0', '0', '0', '0', '0', '0', '0', '1'] ∧
    sendDataCode [1] 255 true ≠ (specVisitMasks 255).map (bitChar 1) := by
  have hmask : maskSeqFrom 255 1 = [1, 2, 4, 8, 16, 32, 64, 128] := by
    simp [maskSeqFrom]
  have hcode : sendDataCode [1] 255 true =
      (maskSeqFrom 255 1).map (bitChar 1) := by
    rw [show sendDataCode [1] 255 true = bitLoop 1 255 1 true [] from rfl,
      bitLoop_true_aux 255 1 255 1 [] (by omega)]
    simp
  refine ⟨?_, by decide, ?_⟩
  · rw [hcode, hmask]
    decide
  · rw [hcode, hmask]
    decide

/-- C2, amended: the inner loop of send_data visits bit values from the
least-significant upward, and a bit participates exactly when its value
is a power of two strictly below max_mask (the mask is an exclusive
upper bound, not a set-bit selector); invert mode appends the visited
bits in that order, non-invert mode prepends them (reversing the
order). -/
theorem bit_order_low_to_high (b max_mask : Nat) (code : List Char) :
    sendDataCode [b] max_mask true =
      (maskSeqFrom max_mask 1).map (bitChar b) ∧
    bitLoop b max_mask 1 true code =
      code ++ (maskSeqFrom max_mask 1).map (bitChar b) ∧
    bitLoop b max_mask 1 false code =
      ((maskSeqFrom max_mask 1).map (bitChar b)).reverse ++ code ∧
    List.Pairwise (fun m1 m2 => m1 < m2) (maskSeqFrom max_mask 1) ∧
    (∀ m, m ∈ maskSeqFrom max_mask 1 ↔ (∃ i, m = 2 ^ i) ∧ m < max_mask) := by
  refine ⟨?_, ?_, ?_, ?_, ?_⟩
  · rw [show sendDataCode [b] max_mask true = bitLoop b max_mask 1 true []
        from rfl,
      bitLoop_true_aux max_mask b max_mask 1 [] (by omega)]
    simp
  · exact bitLoop_true_aux max_mask b max_mask 1 code (by omega)
  · exact bitLoop_false_aux max_mask b max_mask 1 code (by omega)
  · exact maskSeqFrom_pairwise max_mask max_mask 1 (by omega)
  · intro m
    have h := maskSeqFrom_mem_pow max_mask max_mask 0 m (by simp)
    rw [pow_zero] at h
    rw [h]
    constructor
    · rintro ⟨hpow, h1, h2⟩
      exact ⟨hpow, h2⟩
    · rintro ⟨⟨i, rfl⟩, h2⟩
      exact ⟨⟨i, rfl⟩, Nat.pow_pos (by norm_num), h2⟩

/-- C3 counterexample: with a positive leading pulse and a zero leading
gap, process_code still appends a low entry for the leading gap (of
duration 0), so the waveform has two leading entries, not the single
one the claim predicts. -/
theorem leading_gap_guard_refuted :
    (NEC.process_code agcProbeProfile [] []).1 = [(9000 : Int), 0] ∧
    (NEC.process_code agcProbeProfile [] []).1 ≠ [(9000 : Int)] := by
  decide

/-- Helper: taking the length of the left part of an append returns the
left part. -/
theorem take_app {α : Type} :
    ∀ (l1 l2 : List α), (l1 ++ l2).take l1.length = l1 := by
  intro l1 l2
  induction l1 with
  | nil => rfl
  | cons a t ih => simp [ih]

/-- Helper: whenever the leading burst is emitted, the emission of
process_code starts with the leading pulse and the (unconditional)
leading gap. -/
theorem process_code_leading (p : Profile) (ircode : List Char)
    (h : 0 < p.leading_pulse_duration ∨ 0 < p.leading_gap_duration) :
    ∃ rest, (NEC.process_code p ircode []).1 =
      [(p.leading_pulse_duration : Int),
       -(p.leading_gap_duration : Int)] ++ rest := by
  unfold NEC.process_code
  rw [if_pos h, send_agc_eq]
  dsimp only
  rw [processBits_append p ircode
    ([] ++ [(p.leading_pulse_duration : Int),
      -(p.leading_gap_duration : Int)])]
  by_cases hs : (NEC.processBits p ircode []).2 = 0
  · by_cases ht : 0 < p.trailing_pulse_duration
    · refine ⟨(NEC.processBits p ircode []).1 ++
        ((p.trailing_pulse_duration : Int) ::
          (if 0 < p.trailing_gap_duration then
            [-(p.trailing_gap_duration : Int)] else [])), ?_⟩
      simp [hs, ht, send_trailing_pulse_eq]
    · refine ⟨(NEC.processBits p ircode []).1, ?_⟩
      simp [hs, ht]
  · refine ⟨(NEC.processBits p ircode []).1, ?_⟩
    simp [hs]

/-- C3, amended: when the leading burst is emitted (leading pulse or
leading gap positive), the waveform always begins with the high leading
pulse followed by a low entry for the leading gap, even when the
leading-gap duration is 0; the trailing-burst guard is not mirrored. -/
theorem leading_gap_always_emitted (p : Profile) (ircode : List Char)
    (gen : List Int)
    (h : 0 < p.leading_pulse_duration ∨ 0 < p.leading_gap_duration) :
    ((NEC.process_code p ircode gen).1).take (gen.length + 2) =
      gen ++ [(p.leading_pulse_duration : Int),
              -(p.leading_gap_duration : Int)] := by
  obtain ⟨rest, hrest⟩ := process_code_leading p ircode h
  have h1 : (NEC.process_code p ircode gen).1 =
      gen ++ (NEC.process_code p ircode []).1 := by
    rw [process_code_append p ircode gen]
  rw [h1, hrest, ← List.append_assoc]
  have hlen : (gen ++ [(p.leading_pulse_duration : Int),
      -(p.leading_gap_duration : Int)]).length = gen.length + 2 := by
    simp
  rw [← hlen, take_app]

/-- C3 witness: the amended statement evaluated on the Mitsubishi
profile. -/
theorem leading_gap_always_emitted_witness :
    (0 < mitsubishiProfile.leading_pulse_duration ∨
      0 < mitsubishiProfile.leading_gap_duration) ∧
    ((NEC.process_code mitsubishiProfile ['0'] []).1).take 2 =
      [(3400 : Int), -1750] :=
  ⟨Or.inl (by decide),
   leading_gap_always_emitted mitsubishiProfile ['0'] [] (Or.inl (by decide))⟩

/-- C4: a bit string containing a symbol other than the characters 0
and 1 makes send_code return the error (no duration sequence reaches
the caller), and a well-formed bit string produces the waveform with no
error. -/
theorem encoding_error_contract (p : Profile) (ircode : List Char)
    (nb : Nat) (hnb : 1 ≤ nb) :
    ((∃ c ∈ ircode, c ≠ '0' ∧ c ≠ '1') →
      send_code p ircode nb = none) ∧
    ((∀ c ∈ ircode, c = '0' ∨ c = '1') →
      ∃ waveform, send_code p ircode nb = some waveform) := by
  constructor
  · rintro ⟨c, hc, hc0, hc1⟩
    have hbad : ¬ ∀ d ∈ ircode, d = '0' ∨ d = '1' := by
      intro hall
      rcases hall c hc with h | h
      · exact hc0 h
      · exact hc1 h
    have hs : (NEC.process_code p ircode []).2 ≠ 0 := by
      intro h0
      exact hbad ((process_code_status p ircode []).mp h0)
    exact sendCodeGo_err p ircode hs nb [] hnb
  · intro hall
    have hs : (NEC.process_code p ircode []).2 = 0 :=
      (process_code_status p ircode []).mpr hall
    exact ⟨_, sendCodeGo_ok p ircode hs nb []⟩

/-- C4 witness: the contract evaluated on a bad symbol and on a good bit
string. -/
theorem encoding_error_contract_witness :
    send_code mitsubishiProfile ['2'] 1 = none ∧
    (∃ waveform, send_code mitsubishiProfile ['0', '1'] 1 = some waveform) :=
  ⟨(encoding_error_contract mitsubishiProfile ['2'] 1 (by decide)).1
      ⟨'2', by decide, by decide⟩,
   (encoding_error_contract mitsubishiProfile ['0', '1'] 1 (by decide)).2
      (by decide)⟩

/-- C5: with n ≥ 1 repetitions, send_data returns exactly the
concatenation of n copies of the single-repetition sequence, of length
n times the single-repetition length. -/
theorem repetition_concat (p : Profile) (data : List Nat) (max_mask : Nat)
    (must_invert : Bool) (n : Nat) (l1 : List Int) (hn : 1 ≤ n)
    (h1 : send_data p data max_mask must_invert 1 = some l1) :
    send_data p data max_mask must_invert n =
      some (List.replicate n l1).flatten ∧
    (List.replicate n l1).flatten.length = n * l1.length := by
  by_cases hs : (NEC.process_code p
      (sendDataCode data max_mask must_invert) []).2 = 0
  · have hone := sendCodeGo_ok p (sendDataCode data max_mask must_invert)
      hs 1 []
    rw [show send_data p data max_mask must_invert 1 =
        sendCodeGo p (sendDataCode data max_mask must_invert) [] 1
        from rfl, hone] at h1
    have hl1 : (NEC.process_code p
        (sendDataCode data max_mask must_invert) []).1 = l1 := by
      have := Option.some.inj h1
      simpa using this
    constructor
    · have hall := sendCodeGo_ok p (sendDataCode data max_mask must_invert)
        hs n []
      rw [show send_data p data max_mask must_invert n =
          sendCodeGo p (sendDataCode data max_mask must_invert) [] n
          from rfl, hall, hl1]
      simp
    · exact join_replicate_length n l1
  · exfalso
    have herr := sendCodeGo_err p (sendDataCode data max_mask must_invert)
      hs 1 [] (by omega)
    rw [show send_data p data max_mask must_invert 1 =
        sendCodeGo p (sendDataCode data max_mask must_invert) [] 1
        from rfl, herr] at h1
    exact Option.noConfusion h1

/-- C5 witness: two repetitions of the empty byte list concatenate two
copies of the single-repetition waveform. -/
theorem repetition_concat_witness :
    send_data mitsubishiProfile [] 255 true 2 =
      some (List.replicate 2 [(3400 : Int), -1750, 440, -17100]).flatten ∧
    (List.replicate 2 [(3400 : Int), -1750, 440, -17100]).flatten.length =
      2 * [(3400 : Int), -1750, 440, -17100].length :=
  repetition_concat mitsubishiProfile [] 255 true 2
    [(3400 : Int), -1750, 440, -17100] (by decide) (by decide)

/-- C7: the time-control classification picks exactly one of the four
codes, by the stated exhaustive and mutually exclusive conditions on
the optional start and end times. -/
theorem time_control_classification (s e : Option Time) :
    (timeControlOf s e = TimeControlMode.NoTimeControl ∨
      timeControlOf s e = TimeControlMode.ControlStart ∨
      timeControlOf s e = TimeControlMode.ControlEnd ∨
      timeControlOf s e = TimeControlMode.ControlBoth) ∧
    (timeControlOf s e = TimeControlMode.ControlBoth ↔
      s.isSome ∧ e.isSome) ∧
    (timeControlOf s e = TimeControlMode.ControlEnd ↔
      ¬s.isSome ∧ e.isSome) ∧
    (timeControlOf s e = TimeControlMode.ControlStart ↔
      s.isSome ∧ ¬e.isSome) ∧
    (timeControlOf s e = TimeControlMode.NoTimeControl ↔
      ¬s.isSome ∧ ¬e.isSome) := by
  cases s <;> cases e <;>
    simp [timeControlOf, TimeControlMode.NoTimeControl,
      TimeControlMode.ControlStart, TimeControlMode.ControlEnd,
      TimeControlMode.ControlBoth]

/-- C8: two invocations of the command builder with identical settings,
power mode and wall-clock reading yield identical results; the encoder
holds no state shared between invocations (each call constructs a fresh
sender), so it is a pure function of these inputs. -/
theorem send_command_deterministic (s1 s2 : Settings) (pm1 pm2 : Nat)
    (now1 now2 : Time) (hs : s1 = s2) (hpm : pm1 = pm2)
    (hnow : now1 = now2) :
    sendCommandImpl s1 pm1 now1 = sendCommandImpl s2 pm2 now2 := by
  subst hs
  subst hpm
  subst hnow
  rfl

/-- C8 witness: the determinism instance at a concrete invocation. -/
theorem send_command_deterministic_witness :
    sendCommandImpl offSettings 32 ⟨8, 15⟩ =
      sendCommandImpl offSettings 32 ⟨8, 15⟩ :=
  send_command_deterministic offSettings offSettings 32 32 ⟨8, 15⟩ ⟨8, 15⟩
    rfl rfl rfl

end HvacIr
